import Mathlib

/-!
Shallow embedding of the account-state cache and connection supervisor of
`src/ib-api/ib_client.py` (class `IBClient`), together with the
presentation-layer helper `_extract_numeric_value` context from
`src/ib-api/routers/account.py`.

Python dicts are modelled as association lists with insertion order
(`dictGet` / `dictSet`), matching CPython's ordered-dict semantics;
Python floats/Decimals that the cache only stores and compares are
modelled as rationals; an operation that can raise is modelled as an
`Option`-valued function (`none` = exception).
-/

namespace IBApi

/-- Python `d[k]` lookup on an insertion-ordered dict modelled as an
association list: returns the value of the first (and, for dict-built
lists, only) binding of `k`. -/
def dictGet {β : Type} : List (String × β) → String → Option β
  | [], _ => none
  | (k1, v1) :: rest, k => if k1 == k then some v1 else dictGet rest k

/-- Python `d[k] = v` on an insertion-ordered dict: overwrite in place if
the key is present (its position is preserved), else append at the end. -/
def dictSet {β : Type} : List (String × β) → String → β → List (String × β)
  | [], k, v => [(k, v)]
  | (k1, v1) :: rest, k, v =>
    if k1 == k then (k1, v) :: rest else (k1, v1) :: dictSet rest k v

/-- The contract fields `updatePortfolio` reads from an `ibapi` `Contract`. -/
structure ContractInfo where
  symbol : String
  secType : String
  exchange : String
  currency : String
deriving DecidableEq, Repr

/-- One entry of `IBClient._positions` (the `position_data` dict built in
`updatePortfolio`, lines 199-210 of `ib_client.py`). -/
structure PositionData where
  symbol : String
  secType : String
  exchange : String
  currency : String
  position : ℚ
  marketPrice : ℚ
  marketValue : ℚ
  averageCost : ℚ
  unrealizedPNL : ℚ
  realizedPNL : ℚ
deriving DecidableEq, Repr

/-- The settings fields `IBClient` reads (`config.py`): gateway host, the
port derived from the trading mode, client id and connect timeout. -/
structure Settings where
  ib_gateway_host : String
  trading_mode : String
  ib_client_id : Int
  ib_connection_timeout : Int
deriving DecidableEq, Repr

/-- Port selection from `Settings.ib_gateway_port` (`config.py` line 93):
paper maps to 4004, anything else to 4003. -/
def Settings.ib_gateway_port (s : Settings) : Int :=
  if s.trading_mode == "paper" then 4004 else 4003

/-- The mutable state of an `IBClient` instance.  Thread/event objects are
modelled as booleans: `threadAlive` stands for "`_thread` is not `None`
and alive", `connectedEvt` for `_connected.is_set()`, `accountReady` for
`_account_ready.is_set()`, and `sockConnected` for the vendor-level
`EClient.isConnected()`. -/
structure ClientState where
  settings : Settings
  account_values : List (String × List (String × String))
  positions : List PositionData
  account_name : String
  account_time : String
  next_order_id : Int
  last_error : Option String
  threadAlive : Bool
  connectedEvt : Bool
  accountReady : Bool
  sockConnected : Bool
deriving DecidableEq, Repr

/-- State after `IBClient.__init__`: empty cache, no thread, no error. -/
def initState (s : Settings) : ClientState where
  settings := s
  account_values := []
  positions := []
  account_name := ""
  account_time := ""
  next_order_id := 0
  last_error := none
  threadAlive := false
  connectedEvt := false
  accountReady := false
  sockConnected := false

/-- `is_connected` (line 128): `_connected.is_set() and self.isConnected()`. -/
def isConnectedFn (st : ClientState) : Bool :=
  st.connectedEvt && st.sockConnected

/-- The informational codes of `IBClient.error` (line 161). -/
def infoCodes : List Int := [2104, 2106, 2158, 2107]

/-- The EWrapper callbacks delivered by the vendor session, in the shape
`IBClient` receives them. -/
inductive IBEvent where
  | connectAck : IBEvent
  | nextValidId (orderId : Int) : IBEvent
  | connectionClosed : IBEvent
  | errorEvt (reqId : Int) (errorCode : Int) (errorString : String) : IBEvent
  | valueUpdate (key val currency accountName : String) : IBEvent
  | portfolioUpdate (c : ContractInfo)
      (position marketPrice marketValue averageCost unrealizedPNL realizedPNL : ℚ)
      (accountName : String) : IBEvent
  | timeUpdate (timeStamp : String) : IBEvent
  | downloadEnd (accountName : String) : IBEvent
deriving DecidableEq, Repr

/-- The match test of `updatePortfolio` (lines 194-195 and 215-216):
same symbol and same security type. -/
def matchPos (sym sec : String) (p : PositionData) : Bool :=
  p.symbol == sym && p.secType == sec

/-- The `position_data` dict built in `updatePortfolio` (lines 199-210). -/
def mkPositionData (c : ContractInfo) (qty mp mv ac up rp : ℚ) : PositionData where
  symbol := c.symbol
  secType := c.secType
  exchange := c.exchange
  currency := c.currency
  position := qty
  marketPrice := mp
  marketValue := mv
  averageCost := ac
  unrealizedPNL := up
  realizedPNL := rp

/-- The update loop of `updatePortfolio` (lines 212-219): replace the first
entry matching (symbol, secType) in place, else append at the end. -/
def upsertPos (d : PositionData) : List PositionData → List PositionData
  | [] => [d]
  | p :: ps =>
    if matchPos d.symbol d.secType p then d :: ps else p :: upsertPos d ps

/-- One EWrapper callback applied to the client state, following
`ib_client.py` lines 136-229. -/
def applyEvent (st : ClientState) : IBEvent → ClientState
  | .connectAck => st
  | .nextValidId orderId =>
    { st with next_order_id := orderId, connectedEvt := true }
  | .connectionClosed =>
    { st with connectedEvt := false, accountReady := false }
  | .errorEvt _ errorCode errorString =>
    if errorCode ∈ infoCodes then st
    else { st with
      last_error := some ("Error " ++ toString errorCode ++ ": " ++ errorString) }
  | .valueUpdate key val currency accountName =>
    let inner := match dictGet st.account_values key with
      | some m => m
      | none => []
    { st with
      account_name := accountName
      account_values := dictSet st.account_values key (dictSet inner currency val) }
  | .portfolioUpdate c qty mp mv ac up rp _ =>
    if qty = 0 then
      { st with positions :=
          st.positions.filter (fun p => !(matchPos c.symbol c.secType p)) }
    else
      { st with positions := upsertPos (mkPositionData c qty mp mv ac up rp) st.positions }
  | .timeUpdate timeStamp => { st with account_time := timeStamp }
  | .downloadEnd _ => { st with accountReady := true }

/-- Folding a callback sequence into the cache, in arrival order. -/
def foldEvents (st : ClientState) (evs : List IBEvent) : ClientState :=
  evs.foldl applyEvent st

/-- One `summary` entry: the `{"value": ..., "currency": ...}` dict of
`get_account_summary`. -/
structure AccountValue where
  value : String
  currency : String
deriving DecidableEq, Repr

/-- The `key_metrics` list of `get_account_summary` (lines 245-254). -/
def keyMetrics : List String :=
  ["NetLiquidation", "TotalCashValue", "BuyingPower", "AvailableFunds",
   "GrossPositionValue", "MaintMarginReq", "UnrealizedPnL", "RealizedPnL"]

/-- Scan of `values.items()` (lines 266-269): the first entry whose
currency code is non-empty. -/
def firstNonEmpty : List (String × String) → Option AccountValue
  | [] => none
  | (curr, val) :: rest =>
    if curr == "" then firstNonEmpty rest else some ⟨val, curr⟩

/-- Currency preference of `get_account_summary` (lines 258-269): the
"USD" entry if present, else the "BASE" entry, else the first entry with
a non-empty currency code. -/
def resolveCurrency (values : List (String × String)) : Option AccountValue :=
  match dictGet values "USD" with
  | some v => some ⟨v, "USD"⟩
  | none =>
    match dictGet values "BASE" with
    | some v => some ⟨v, "BASE"⟩
    | none => firstNonEmpty values

/-- The `summary` dict built by `get_account_summary` (lines 244-269):
for each key metric present in the cache, its resolved value/currency;
metrics absent from the cache, or with no resolvable entry, are omitted. -/
def summaryOf (st : ClientState) : List (String × AccountValue) :=
  keyMetrics.filterMap fun k =>
    ((dictGet st.account_values k).bind resolveCurrency).map fun a => (k, a)

/-- Digit list to natural number, most significant first. -/
def digitsVal (cs : List Char) : Nat :=
  cs.foldl (fun a c => 10 * a + (c.toNat - Char.toNat '0')) 0

/-- Unsigned decimal literal: digits with an optional single point,
at least one digit overall. -/
def parseUnsigned (cs : List Char) : Option ℚ :=
  let intPart := cs.takeWhile Char.isDigit
  match cs.dropWhile Char.isDigit with
  | [] => if intPart.isEmpty then none else some (digitsVal intPart)
  | '.' :: frac =>
    if frac.all Char.isDigit && !(intPart.isEmpty && frac.isEmpty) then
      some ((digitsVal intPart : ℚ) + (digitsVal frac : ℚ) / (10 : ℚ) ^ frac.length)
    else none
  | _ => none

/-- Python `float(s)` on the plain decimal literals the gateway feed uses
(optional sign, digits, optional point); `none` models a raised
`ValueError`.  Exponent, infinity/NaN and whitespace forms are outside
the behaviour the cache exercises and are mapped to `none` as well. -/
def pyFloat (s : String) : Option ℚ :=
  match s.toList with
  | '-' :: rest => (parseUnsigned rest).map Neg.neg
  | '+' :: rest => parseUnsigned rest
  | cs => parseUnsigned cs

/-- The cash-balance loop of `get_account_summary` (lines 272-276): keep
entries with a non-empty currency and a non-zero numeric value; a value
that does not parse raises (`none`).  Python's `and` short-circuits, so
an empty currency skips the entry without parsing its value. -/
def collectCash : List (String × String) → Option (List (String × String))
  | [] => some []
  | (curr, val) :: rest =>
    if curr == "" then collectCash rest
    else
      match pyFloat val with
      | none => none
      | some q =>
        if q = 0 then collectCash rest
        else (collectCash rest).map fun l => (curr, val) :: l

/-- The dict returned by `get_account_summary` (lines 278-286). -/
structure AccountSummary where
  account_id : String
  last_update : String
  connected : Bool
  trading_mode : String
  summary : List (String × AccountValue)
  cash_balances : List (String × String)
  positions : List PositionData
deriving DecidableEq, Repr

/-- `IBClient.get_account_summary` (lines 235-286); `none` models the
`ValueError` escaping from `float(value)` on a malformed cash balance. -/
def get_account_summary (st : ClientState) : Option AccountSummary :=
  let cash : Option (List (String × String)) :=
    match dictGet st.account_values "CashBalance" with
    | none => some []
    | some vs => collectCash vs
  cash.map fun cb =>
    { account_id := st.account_name
      last_update := st.account_time
      connected := isConnectedFn st
      trading_mode := st.settings.trading_mode
      summary := summaryOf st
      cash_balances := cb
      positions := st.positions }

/-- The dict returned by `get_connection_status` (lines 288-304). -/
structure ConnectionStatus where
  connected : Bool
  account_ready : Bool
  account_id : Option String
  trading_mode : String
  gateway_host : String
  gateway_port : Int
  last_error : Option String
deriving DecidableEq, Repr

/-- `IBClient.get_connection_status` (lines 288-304); `account_id` is
`self._account_name or None`, i.e. `none` when the name is empty. -/
def get_connection_status (st : ClientState) : ConnectionStatus where
  connected := isConnectedFn st
  account_ready := st.accountReady
  account_id := if st.account_name == "" then none else some st.account_name
  trading_mode := st.settings.trading_mode
  gateway_host := st.settings.ib_gateway_host
  gateway_port := st.settings.ib_gateway_port
  last_error := st.last_error

/-- Commands `IBClient` issues to the gateway: `connect(...)`,
`reqAccountUpdates(on, "")` and `disconnect()`. -/
inductive GatewayCmd where
  | connect : GatewayCmd
  | reqAccountUpdates (subscribe : Bool) : GatewayCmd
  | disconnect : GatewayCmd
deriving DecidableEq, Repr

/-- Environment behaviour of one `start()` attempt: `connect()` raises;
or the socket connects but `_connected` is never set within the timeout;
or `nextValidId(orderId)` arrives on the worker before the timeout. -/
inductive ConnectBehavior where
  | raises : ConnectBehavior
  | timeout : ConnectBehavior
  | ack (orderId : Int) : ConnectBehavior
deriving DecidableEq, Repr

/-- `IBClient.stop` (lines 105-126): best-effort unsubscribe/disconnect
when the socket is up, then clear both events, join and drop the thread. -/
def stop (st : ClientState) : ClientState × List GatewayCmd :=
  let p : ClientState × List GatewayCmd :=
    if st.sockConnected then
      ({ st with sockConnected := false },
       [GatewayCmd.reqAccountUpdates false, GatewayCmd.disconnect])
    else (st, [])
  ({ p.1 with connectedEvt := false, accountReady := false, threadAlive := false },
   p.2)

/-- `IBClient.start` (lines 62-103), with the environment's behaviour made
explicit: early return `True` when the thread is already alive; `connect`
raising is caught and returns `False`; on timeout the partially-started
session is torn down via `stop` and `False` is returned; on
acknowledgement (`nextValidId` processed by the worker) the account
subscription is requested and `True` is returned.  The returned list is
the sequence of gateway commands issued. -/
def start (st : ClientState) (beh : ConnectBehavior) :
    Bool × ClientState × List GatewayCmd :=
  if st.threadAlive then (true, st, [])
  else
    match beh with
    | .raises => (false, st, [GatewayCmd.connect])
    | .timeout =>
      let st1 := { st with sockConnected := true, threadAlive := true }
      let p := stop st1
      (false, p.1, GatewayCmd.connect :: p.2)
    | .ack orderId =>
      let st1 := applyEvent
        { st with sockConnected := true, threadAlive := true }
        (IBEvent.nextValidId orderId)
      (true, st1, [GatewayCmd.connect, GatewayCmd.reqAccountUpdates true])

/-- The identity of a position: its (symbol, secType) pair. -/
def posKey (p : PositionData) : String × String :=
  (p.symbol, p.secType)

/-- At most one entry per (symbol, secType): all keys pairwise distinct. -/
def posKeysDistinct (l : List PositionData) : Prop :=
  l.Pairwise (fun a b => posKey a ≠ posKey b)

lemma matchPos_eq_true_iff (sym sec : String) (p : PositionData) :
    matchPos sym sec p = true ↔ (p.symbol = sym ∧ p.secType = sec) := by
  simp [matchPos]

lemma matchPos_eq_true_iff_posKey (sym sec : String) (p : PositionData) :
    matchPos sym sec p = true ↔ posKey p = (sym, sec) := by
  rw [matchPos_eq_true_iff, posKey, Prod.mk.injEq]

lemma mem_upsertPos {q d : PositionData} :
    ∀ {l : List PositionData}, q ∈ upsertPos d l → q = d ∨ q ∈ l := by
  intro l
  induction l with
  | nil =>
    intro h
    simp [upsertPos] at h
    exact Or.inl h
  | cons p ps ih =>
    intro h
    by_cases hm : matchPos d.symbol d.secType p = true
    · simp [upsertPos, hm] at h
      rcases h with h | h
      · exact Or.inl h
      · exact Or.inr (List.mem_cons_of_mem _ h)
    · simp [upsertPos, hm] at h
      rcases h with h | h
      · exact Or.inr (by simp [h])
      · rcases ih h with h1 | h1
        · exact Or.inl h1
        · exact Or.inr (List.mem_cons_of_mem _ h1)

lemma posKeysDistinct_upsertPos {d : PositionData} :
    ∀ {l : List PositionData}, posKeysDistinct l → posKeysDistinct (upsertPos d l) := by
  intro l
  induction l with
  | nil =>
    intro _
    simp [upsertPos, posKeysDistinct]
  | cons p ps ih =>
    intro h
    rw [posKeysDistinct, List.pairwise_cons] at h
    obtain ⟨hp, hps⟩ := h
    by_cases hm : matchPos d.symbol d.secType p = true
    · have hk : posKey p = posKey d := by
        obtain ⟨h1, h2⟩ := (matchPos_eq_true_iff _ _ _).1 hm
        simp [posKey, h1, h2]
      rw [upsertPos, if_pos hm, posKeysDistinct, List.pairwise_cons]
      exact ⟨fun q hq => hk ▸ hp q hq, hps⟩
    · rw [upsertPos, if_neg hm, posKeysDistinct, List.pairwise_cons]
      refine ⟨fun q hq => ?_, ih hps⟩
      rcases mem_upsertPos hq with h1 | h1
      · subst h1
        intro hkeq
        exact hm ((matchPos_eq_true_iff_posKey _ _ _).2 hkeq)
      · exact hp q h1

lemma posKeysDistinct_applyEvent (st : ClientState) (e : IBEvent)
    (h : posKeysDistinct st.positions) : posKeysDistinct (applyEvent st e).positions := by
  cases e with
  | connectAck => exact h
  | nextValidId orderId => exact h
  | connectionClosed => exact h
  | errorEvt reqId code msg =>
    by_cases hc : code ∈ infoCodes
    · simpa [applyEvent, hc] using h
    · simpa [applyEvent, hc] using h
  | valueUpdate key val currency accountName => exact h
  | timeUpdate timeStamp => exact h
  | downloadEnd accountName => exact h
  | portfolioUpdate c qty mp mv ac up rp an =>
    by_cases hq : qty = 0
    · simp only [applyEvent, if_pos hq]
      exact List.Pairwise.sublist (List.filter_sublist _) h
    · simp only [applyEvent, if_neg hq]
      exact posKeysDistinct_upsertPos h

lemma posKeysDistinct_foldEvents :
    ∀ (evs : List IBEvent) (st : ClientState), posKeysDistinct st.positions →
    posKeysDistinct (foldEvents st evs).positions := by
  intro evs
  induction evs with
  | nil =>
    intro st h
    simpa [foldEvents] using h
  | cons e rest ih =>
    intro st h
    rw [foldEvents, List.foldl_cons]
    exact ih (applyEvent st e) (posKeysDistinct_applyEvent st e h)

lemma upsertPos_append (d : PositionData) :
    ∀ (l : List PositionData), (∀ q ∈ l, matchPos d.symbol d.secType q = false) →
    upsertPos d l = l ++ [d] := by
  intro l
  induction l with
  | nil => intro _; rfl
  | cons p ps ih =>
    intro h
    have hp : matchPos d.symbol d.secType p = false := h p (by simp)
    rw [upsertPos, if_neg (by simp [hp]), ih (fun q hq => h q (by simp [hq]))]
    rfl

lemma filter_remove_of_distinct (sym sec : String) (pre post : List PositionData)
    (d0 : PositionData) (hnd : posKeysDistinct (pre ++ d0 :: post))
    (h0 : matchPos sym sec d0 = true) :
    (pre ++ d0 :: post).filter (fun p => !(matchPos sym sec p)) = pre ++ post := by
  have hkey : posKey d0 = (sym, sec) := (matchPos_eq_true_iff_posKey _ _ _).1 h0
  rw [posKeysDistinct, List.pairwise_append] at hnd
  obtain ⟨-, hpost, hcross⟩ := hnd
  rw [List.pairwise_cons] at hpost
  have hpre : ∀ q ∈ pre, matchPos sym sec q = false := by
    intro q hq
    have hne : posKey q ≠ posKey d0 := hcross q hq d0 (by simp)
    rcases hb : matchPos sym sec q with - | -
    · rfl
    · exact absurd (((matchPos_eq_true_iff_posKey _ _ _).1 hb).trans hkey.symm) hne
  have hpost2 : ∀ q ∈ post, matchPos sym sec q = false := by
    intro q hq
    have hne : posKey d0 ≠ posKey q := hpost.1 q hq
    rcases hb : matchPos sym sec q with - | -
    · rfl
    · exact absurd (hkey.trans ((matchPos_eq_true_iff_posKey _ _ _).1 hb).symm) hne
  rw [List.filter_append, List.filter_cons]
  simp only [h0, Bool.not_true, if_neg (by simp : ¬(false = true))]
  rw [List.filter_eq_self.2 (fun q hq => by simp [hpre q hq]),
    List.filter_eq_self.2 (fun q hq => by simp [hpost2 q hq])]

lemma upsertPos_replace (d d0 : PositionData) (post : List PositionData) :
    ∀ (pre : List PositionData), (∀ q ∈ pre, matchPos d.symbol d.secType q = false) →
    matchPos d.symbol d.secType d0 = true →
    upsertPos d (pre ++ d0 :: post) = pre ++ d :: post := by
  intro pre
  induction pre with
  | nil =>
    intro _ h0
    rw [List.nil_append, upsertPos, if_pos h0, List.nil_append]
  | cons p ps ih =>
    intro h h0
    have hp : matchPos d.symbol d.secType p = false := h p (by simp)
    rw [List.cons_append, upsertPos, if_neg (by simp [hp]),
      ih (fun q hq => h q (by simp [hq])) h0, List.cons_append]

/-- C1: every fold of callback events from the initial state yields a
position list with at most one entry per (symbol, secType) pair; a nonzero
update matching an existing entry replaces it in place (the prefix before
it and the suffix after it are unchanged, so its index is preserved), and
an update for a new pair is appended at the end. -/
theorem positions_unique_and_replace_in_place :
    (∀ (s : Settings) (evs : List IBEvent),
      posKeysDistinct (foldEvents (initState s) evs).positions)
    ∧ (∀ (st : ClientState) (c : ContractInfo) (qty mp mv ac up rp : ℚ) (an : String),
      qty ≠ 0 →
      ((∀ (pre : List PositionData) (d0 : PositionData) (post : List PositionData),
          st.positions = pre ++ d0 :: post →
          matchPos c.symbol c.secType d0 = true →
          (∀ q ∈ pre, matchPos c.symbol c.secType q = false) →
          (applyEvent st (IBEvent.portfolioUpdate c qty mp mv ac up rp an)).positions
            = pre ++ mkPositionData c qty mp mv ac up rp :: post)
       ∧ ((∀ q ∈ st.positions, matchPos c.symbol c.secType q = false) →
          (applyEvent st (IBEvent.portfolioUpdate c qty mp mv ac up rp an)).positions
            = st.positions ++ [mkPositionData c qty mp mv ac up rp]))) := by
  constructor
  · intro s evs
    exact posKeysDistinct_foldEvents evs (initState s) List.Pairwise.nil
  · intro st c qty mp mv ac up rp an hq
    constructor
    · intro pre d0 post hdecomp h0 hpre
      simp only [applyEvent, if_neg hq]
      rw [hdecomp]
      exact upsertPos_replace _ d0 post pre hpre h0
    · intro hall
      simp only [applyEvent, if_neg hq]
      exact upsertPos_append _ st.positions hall

/-- Settings used by concrete witnesses (defaults of `config.py`). -/
def sW : Settings where
  ib_gateway_host := "ib-gateway"
  trading_mode := "paper"
  ib_client_id := 1
  ib_connection_timeout := 10

/-- A concrete contract for witnesses. -/
def cW : ContractInfo where
  symbol := "AAPL"
  secType := "STK"
  exchange := "SMART"
  currency := "USD"

/-- A concrete cache state holding one AAPL position. -/
def stW : ClientState :=
  applyEvent (initState sW) (IBEvent.portfolioUpdate cW 5 1 2 3 4 5 "U1")

theorem positions_unique_and_replace_in_place_witness :
    (applyEvent stW (IBEvent.portfolioUpdate cW 7 9 9 9 9 9 "U1")).positions
      = [] ++ mkPositionData cW 7 9 9 9 9 9 :: [] :=
  (positions_unique_and_replace_in_place.2 stW cW 7 9 9 9 9 9 "U1" (by norm_num)).1
    [] (mkPositionData cW 5 1 2 3 4 5) [] (by decide) (by decide) (by decide)

/-- C3: a quantity-0 update for a (symbol, secType) present in the position
list removes exactly that entry (the prefix and suffix around it are intact
and no other field of the cache changes); for an absent pair the whole
cache state is unchanged. -/
theorem zero_quantity_removes_or_is_noop :
    ∀ (st : ClientState) (c : ContractInfo) (mp mv ac up rp : ℚ) (an : String),
    posKeysDistinct st.positions →
    ((∀ (pre : List PositionData) (d0 : PositionData) (post : List PositionData),
        st.positions = pre ++ d0 :: post →
        matchPos c.symbol c.secType d0 = true →
        applyEvent st (IBEvent.portfolioUpdate c 0 mp mv ac up rp an)
          = { st with positions := pre ++ post })
     ∧ ((∀ q ∈ st.positions, matchPos c.symbol c.secType q = false) →
        applyEvent st (IBEvent.portfolioUpdate c 0 mp mv ac up rp an) = st)) := by
  intro st c mp mv ac up rp an hnd
  constructor
  · intro pre d0 post hdecomp h0
    have hfil : st.positions.filter (fun p => !(matchPos c.symbol c.secType p))
        = pre ++ post := by
      rw [hdecomp]
      exact filter_remove_of_distinct _ _ _ _ _ (hdecomp ▸ hnd) h0
    simp only [applyEvent, eq_self_iff_true, if_true, hfil]
  · intro hall
    have hfil : st.positions.filter (fun p => !(matchPos c.symbol c.secType p))
        = st.positions :=
      List.filter_eq_self.2 (fun q hq => by simp [hall q hq])
    simp only [applyEvent, eq_self_iff_true, if_true, hfil]

theorem zero_quantity_removes_or_is_noop_witness :
    applyEvent stW (IBEvent.portfolioUpdate cW 0 9 9 9 9 9 "U1")
      = { stW with positions := [] ++ [] } :=
  (zero_quantity_removes_or_is_noop stW cW 9 9 9 9 9 "U1"
      (by unfold posKeysDistinct; decide)).1
    [] (mkPositionData cW 5 1 2 3 4 5) [] (by decide) (by decide)

lemma dictGet_filterMap_of_forall_ne {β : Type} (f : String → Option β) :
    ∀ (ks : List String) (k : String), (∀ k2 ∈ ks, k2 ≠ k) →
    dictGet (ks.filterMap fun k2 => (f k2).map fun a => (k2, a)) k = none := by
  intro ks
  induction ks with
  | nil => intro k _; rfl
  | cons k1 rest ih =>
    intro k hne
    have h1 : k1 ≠ k := hne k1 (by simp)
    have hrest : ∀ k2 ∈ rest, k2 ≠ k := fun k2 hk2 => hne k2 (by simp [hk2])
    cases hf : f k1 with
    | none => simp only [List.filterMap_cons, hf, Option.map_none]; exact ih k hrest
    | some a =>
      simp only [List.filterMap_cons, hf, Option.map_some]
      simp only [dictGet]
      rw [if_neg (by simp [h1])]
      exact ih k hrest

lemma dictGet_filterMap {β : Type} (f : String → Option β) :
    ∀ (ks : List String), ks.Nodup → ∀ k ∈ ks,
    dictGet (ks.filterMap fun k2 => (f k2).map fun a => (k2, a)) k = f k := by
  intro ks
  induction ks with
  | nil => intro _ k hk; exact absurd hk (by simp)
  | cons k1 rest ih =>
    intro hnd k hk
    rw [List.nodup_cons] at hnd
    obtain ⟨hk1, hndrest⟩ := hnd
    by_cases heq : k = k1
    · subst heq
      cases hf : f k with
      | none =>
        simp only [List.filterMap_cons, hf, Option.map_none]
        exact dictGet_filterMap_of_forall_ne f rest k
          (fun k2 hk2 => fun he => hk1 (he ▸ hk2))
      | some a =>
        simp only [List.filterMap_cons, hf, Option.map_some]
        simp only [dictGet]
        rw [if_pos (by simp)]
    · have hkrest : k ∈ rest := by
        rcases List.mem_cons.1 hk with h | h
        · exact absurd h heq
        · exact h
      cases hf : f k1 with
      | none =>
        simp only [List.filterMap_cons, hf, Option.map_none]
        exact ih hndrest k hkrest
      | some a =>
        simp only [List.filterMap_cons, hf, Option.map_some]
        simp only [dictGet]
        rw [if_neg (by simp; exact fun he => heq he.symm)]
        exact ih hndrest k hkrest

lemma dictGet_summaryOf (st : ClientState) (k : String) (hk : k ∈ keyMetrics) :
    dictGet (summaryOf st) k = (dictGet st.account_values k).bind resolveCurrency := by
  have hnd : keyMetrics.Nodup := by decide
  exact dictGet_filterMap (fun k2 => (dictGet st.account_values k2).bind resolveCurrency)
    keyMetrics hnd k hk

lemma firstNonEmpty_decomp (c v : String) (post : List (String × String)) :
    ∀ (pre : List (String × String)), (∀ q ∈ pre, q.1 = "") → c ≠ "" →
    firstNonEmpty (pre ++ (c, v) :: post) = some ⟨v, c⟩ := by
  intro pre
  induction pre with
  | nil =>
    intro _ hc
    rw [List.nil_append, firstNonEmpty, if_neg (by simp [hc])]
  | cons q qs ih =>
    intro h hc
    obtain ⟨q1, q2⟩ := q
    have hq1 : q1 = "" := h (q1, q2) (by simp)
    rw [List.cons_append, firstNonEmpty, if_pos (by simp [hq1])]
    exact ih (fun r hr => h r (by simp [hr])) hc

/-- C4: for every headline metric stored in the account-values map the
summary resolves its currency by preferring "USD", then "BASE", then the
first entry with a non-empty currency code; metrics with no stored entry
are omitted from the summary. -/
theorem summary_currency_preference :
    ∀ (st : ClientState) (k : String), k ∈ keyMetrics →
    ((dictGet st.account_values k = none → dictGet (summaryOf st) k = none)
     ∧ (∀ (vs : List (String × String)) (v : String),
          dictGet st.account_values k = some vs →
          dictGet vs "USD" = some v →
          dictGet (summaryOf st) k = some ⟨v, "USD"⟩)
     ∧ (∀ (vs : List (String × String)) (v : String),
          dictGet st.account_values k = some vs →
          dictGet vs "USD" = none → dictGet vs "BASE" = some v →
          dictGet (summaryOf st) k = some ⟨v, "BASE"⟩)
     ∧ (∀ (pre : List (String × String)) (c v : String)
          (post : List (String × String)),
          dictGet st.account_values k = some (pre ++ (c, v) :: post) →
          dictGet (pre ++ (c, v) :: post) "USD" = none →
          dictGet (pre ++ (c, v) :: post) "BASE" = none →
          (∀ q ∈ pre, q.1 = "") → c ≠ "" →
          dictGet (summaryOf st) k = some ⟨v, c⟩)) := by
  intro st k hk
  refine ⟨?_, ?_, ?_, ?_⟩
  · intro h
    rw [dictGet_summaryOf st k hk, h, Option.none_bind]
  · intro vs v hvs husd
    rw [dictGet_summaryOf st k hk, hvs, Option.some_bind, resolveCurrency, husd]
  · intro vs v hvs husd hbase
    rw [dictGet_summaryOf st k hk, hvs, Option.some_bind, resolveCurrency, husd, hbase]
  · intro pre c v post hvs husd hbase hpre hc
    rw [dictGet_summaryOf st k hk, hvs, Option.some_bind, resolveCurrency, husd, hbase]
    exact firstNonEmpty_decomp c v post pre hpre hc

/-- A state holding only `NetLiquidation ↦ \x7b"EUR": "100"\x7d`. -/
def stEur : ClientState :=
  { initState sW with account_values := [("NetLiquidation", [("EUR", "100")])] }

/-- A state holding `NetLiquidation ↦ \x7b"USD": "50", "EUR": "100"\x7d`. -/
def stUsdEur : ClientState :=
  { initState sW with
    account_values := [("NetLiquidation", [("USD", "50"), ("EUR", "100")])] }

/-- A state holding only `NetLiquidation ↦ \x7b"BASE": "10"\x7d`. -/
def stBase : ClientState :=
  { initState sW with account_values := [("NetLiquidation", [("BASE", "10")])] }

theorem summary_currency_preference_witness :
    dictGet (summaryOf stEur) "NetLiquidation" = some ⟨"100", "EUR"⟩
    ∧ dictGet (summaryOf stUsdEur) "NetLiquidation" = some ⟨"50", "USD"⟩
    ∧ dictGet (summaryOf stBase) "NetLiquidation" = some ⟨"10", "BASE"⟩ :=
  ⟨(summary_currency_preference stEur "NetLiquidation" (by decide)).2.2.2
      [] "EUR" "100" [] (by decide) (by decide) (by decide) (by decide) (by decide),
   (summary_currency_preference stUsdEur "NetLiquidation" (by decide)).2.1
      [("USD", "50"), ("EUR", "100")] "50" (by decide) (by decide),
   (summary_currency_preference stBase "NetLiquidation" (by decide)).2.2.1
      [("BASE", "10")] "10" (by decide) (by decide) (by decide)⟩

lemma isSome_of_map {α β : Type} (f : α → β) (o : Option α) :
    (o.map f).isSome = o.isSome := by
  cases o <;> rfl

lemma collectCash_isSome :
    ∀ (vs : List (String × String)),
    (∀ p ∈ vs, p.1 ≠ "" → (pyFloat p.2).isSome = true) →
    (collectCash vs).isSome = true := by
  intro vs
  induction vs with
  | nil => intro _; rfl
  | cons p rest ih =>
    intro h
    obtain ⟨curr, val⟩ := p
    have hrest : (collectCash rest).isSome = true :=
      ih (fun q hq => h q (by simp [hq]))
    by_cases hc : curr = ""
    · rw [collectCash, if_pos (by simp [hc])]
      exact hrest
    · rw [collectCash, if_neg (by simp [hc])]
      have hsome : (pyFloat val).isSome = true := h (curr, val) (by simp) hc
      obtain ⟨q, hq⟩ := Option.isSome_iff_exists.1 hsome
      rw [hq]
      by_cases hz : q = 0
      · simpa [hz] using hrest
      · simpa [hz, isSome_of_map] using hrest

/-- C5 (amended): the update callbacks and `get_connection_status` are
total by construction, and `get_account_summary` completes (returns
`some`) whenever every stored cash-balance entry with a non-empty
currency has a value parseable as a float; a non-parseable cash-balance
value, however, makes `get_account_summary` raise (see the
counterexample below). -/
theorem summary_total_of_parseable_cash :
    ∀ st : ClientState,
    (∀ p ∈ ((dictGet st.account_values "CashBalance").getD []),
       p.1 ≠ "" → (pyFloat p.2).isSome = true) →
    (get_account_summary st).isSome = true := by
  intro st h
  rw [get_account_summary]
  cases hcb : dictGet st.account_values "CashBalance" with
  | none => simp
  | some vs =>
    rw [hcb] at h
    simp only [Option.getD_some] at h
    rw [isSome_of_map]
    exact collectCash_isSome vs h

/-- A state whose only cash balance has the malformed value "abc". -/
def cashAbcState : ClientState :=
  { initState sW with account_values := [("CashBalance", [("USD", "abc")])] }

/-- C5 (counterexample): with a stored CashBalance entry of "abc",
`get_account_summary` raises (`float("abc")` at line 275 of
`ib_client.py`), modelled as returning `none` — refuting the claim that
malformed numeric strings never cause a failure inside the cache. -/
theorem summary_raises_on_malformed_cash :
    get_account_summary cashAbcState = none := by decide

/-- A state whose cash balances are all well-formed. -/
def cashOkState : ClientState :=
  { initState sW with
    account_values := [("CashBalance", [("USD", "100.5"), ("EUR", "0")])] }

theorem summary_total_of_parseable_cash_witness :
    (get_account_summary cashOkState).isSome = true :=
  summary_total_of_parseable_cash cashOkState (by decide)

/-- C6: an error callback with a code on the informational allow-list
leaves the whole state (in particular the last-error field) unchanged;
any other code sets the last-error field to a message embedding the
code's digits, and nothing else changes. -/
theorem error_code_classification :
    ∀ (st : ClientState) (reqId code : Int) (msg : String),
    (code ∈ infoCodes → applyEvent st (IBEvent.errorEvt reqId code msg) = st)
    ∧ (code ∉ infoCodes →
        applyEvent st (IBEvent.errorEvt reqId code msg)
          = { st with last_error := some ("Error " ++ toString code ++ ": " ++ msg) }
        ∧ ∃ s1 s2 : String,
            "Error " ++ toString code ++ ": " ++ msg = s1 ++ toString code ++ s2) := by
  intro st reqId code msg
  constructor
  · intro h
    simp only [applyEvent, if_pos h]
  · intro h
    refine ⟨by simp only [applyEvent, if_neg h], "Error ", ": " ++ msg, ?_⟩
    rw [String.append_assoc]

theorem error_code_classification_witness :
    applyEvent (initState sW) (IBEvent.errorEvt 1 2104 "farm ok") = initState sW
    ∧ applyEvent (initState sW) (IBEvent.errorEvt 1 502 "no conn")
        = { initState sW with
            last_error := some ("Error " ++ toString (502 : Int) ++ ": " ++ "no conn") } :=
  ⟨(error_code_classification (initState sW) 1 2104 "farm ok").1 (by decide),
   ((error_code_classification (initState sW) 1 502 "no conn").2 (by decide)).1⟩

/-- C7 (amended): the last-error field is sticky — it changes only when a
non-informational error callback overwrites it; every other callback,
`start` (whatever the outcome), `stop`, and the read operations leave it
unchanged, and `get_connection_status` reports it verbatim.  It is never
cleared: a successful `start()` does not reset it (see the
counterexample below). -/
theorem last_error_sticky :
    (∀ (st : ClientState) (e : IBEvent),
      (∀ reqId code msg, e = IBEvent.errorEvt reqId code msg → code ∈ infoCodes) →
      (applyEvent st e).last_error = st.last_error)
    ∧ (∀ (st : ClientState) (reqId code : Int) (msg : String), code ∉ infoCodes →
      (applyEvent st (IBEvent.errorEvt reqId code msg)).last_error
        = some ("Error " ++ toString code ++ ": " ++ msg))
    ∧ (∀ (st : ClientState) (beh : ConnectBehavior),
      (start st beh).2.1.last_error = st.last_error)
    ∧ (∀ st : ClientState, (stop st).1.last_error = st.last_error)
    ∧ (∀ st : ClientState, (get_connection_status st).last_error = st.last_error) := by
  refine ⟨?_, ?_, ?_, ?_, ?_⟩
  · intro st e hinfo
    cases e with
    | connectAck => rfl
    | nextValidId orderId => rfl
    | connectionClosed => rfl
    | errorEvt reqId code msg =>
      have hc : code ∈ infoCodes := hinfo reqId code msg rfl
      simp only [applyEvent, if_pos hc]
    | valueUpdate key val currency accountName => rfl
    | portfolioUpdate c qty mp mv ac up rp an =>
      by_cases hq : qty = 0
      · simp only [applyEvent, if_pos hq]
      · simp only [applyEvent, if_neg hq]
    | timeUpdate timeStamp => rfl
    | downloadEnd accountName => rfl
  · intro st reqId code msg h
    simp only [applyEvent, if_neg h]
  · intro st beh
    by_cases ht : st.threadAlive = true
    · simp only [start, if_pos ht]
    · cases beh with
      | raises => simp only [start, if_neg ht]
      | timeout =>
        simp only [start, if_neg ht, stop]
        split <;> rfl
      | ack orderId => simp only [start, if_neg ht, applyEvent]
  · intro st
    simp only [stop]
    split <;> rfl
  · intro st
    rfl

/-- The initial state after a 502 error callback. -/
def errState : ClientState :=
  applyEvent (initState sW) (IBEvent.errorEvt 1 502 "boom")

/-- C7 (counterexample): from a state with a recorded error, a `start()`
that completes successfully returns `true` yet leaves the last-error
field set — refuting the claim that a fresh successful `start()` clears
it (`IBClient.start`, lines 62-103, never touches `_last_error`). -/
theorem successful_start_does_not_clear_error :
    (start errState (ConnectBehavior.ack 7)).1 = true
    ∧ (start errState (ConnectBehavior.ack 7)).2.1.last_error
        = some "Error 502: boom" := by
  constructor
  · decide
  · decide

theorem last_error_sticky_witness :
    (applyEvent (initState sW) (IBEvent.timeUpdate "t")).last_error
      = (initState sW).last_error :=
  last_error_sticky.1 (initState sW) (IBEvent.timeUpdate "t") (by intro _ _ _ h; cases h)

/-- C8: when the connect request goes out but the acknowledgement never
arrives within the timeout, `start` returns failure and tears the session
down to Idle: the thread handle is cleared, both events are cleared, the
socket is disconnected, the cache fields are untouched, and no
subscribe-to-account-updates command was issued. -/
theorem start_timeout_leaves_idle :
    ∀ st : ClientState, st.threadAlive = false →
    (start st ConnectBehavior.timeout).1 = false
    ∧ (start st ConnectBehavior.timeout).2.1.threadAlive = false
    ∧ (start st ConnectBehavior.timeout).2.1.connectedEvt = false
    ∧ (start st ConnectBehavior.timeout).2.1.accountReady = false
    ∧ (start st ConnectBehavior.timeout).2.1.sockConnected = false
    ∧ (start st ConnectBehavior.timeout).2.1.account_values = st.account_values
    ∧ (start st ConnectBehavior.timeout).2.1.positions = st.positions
    ∧ GatewayCmd.reqAccountUpdates true ∉ (start st ConnectBehavior.timeout).2.2 := by
  intro st ht
  have hne : ¬st.threadAlive = true := by simp [ht]
  refine ⟨?_, ?_, ?_, ?_, ?_, ?_, ?_, ?_⟩ <;>
    simp [start, if_neg hne, stop]

theorem start_timeout_leaves_idle_witness :
    (start (initState sW) ConnectBehavior.timeout).1 = false
    ∧ GatewayCmd.reqAccountUpdates true
        ∉ (start (initState sW) ConnectBehavior.timeout).2.2 :=
  ⟨(start_timeout_leaves_idle (initState sW) rfl).1,
   (start_timeout_leaves_idle (initState sW) rfl).2.2.2.2.2.2.2⟩

/-- C9 (counterexample): after a first `start()` that failed (the connect
request raised), a second `start()` without an intervening `stop()` does
issue a new connect request to the gateway — refuting the claim that the
second call never reconnects regardless of the first call's result. -/
theorem second_start_reconnects_after_failure :
    (start (initState sW) ConnectBehavior.raises).1 = false
    ∧ GatewayCmd.connect ∈
        (start (start (initState sW) ConnectBehavior.raises).2.1
          ConnectBehavior.raises).2.2 := by
  constructor
  · decide
  · decide

/-- C9 (amended): if the first `start()` returned success, a second
`start()` without an intervening `stop()` returns success, issues no
gateway command at all, and leaves the state unchanged; after a failed
`start()` the second call instead retries the connection. -/
theorem start_idempotent_after_success :
    ∀ (st s1 : ClientState) (c1 : List GatewayCmd) (beh beh2 : ConnectBehavior),
    start st beh = (true, s1, c1) →
    start s1 beh2 = (true, s1, []) := by
  intro st s1 c1 beh beh2 h
  by_cases ht : st.threadAlive = true
  · simp only [start, if_pos ht] at h
    have h2 : st = s1 := congrArg (fun p => p.2.1) h
    subst h2
    simp only [start, if_pos ht]
  · cases beh with
    | raises =>
      simp only [start, if_neg ht] at h
      exact absurd (congrArg Prod.fst h) (by simp)
    | timeout =>
      simp only [start, if_neg ht] at h
      exact absurd (congrArg Prod.fst h) (by simp)
    | ack orderId =>
      simp only [start, if_neg ht] at h
      have h2 : applyEvent { st with sockConnected := true, threadAlive := true }
          (IBEvent.nextValidId orderId) = s1 := congrArg (fun p => p.2.1) h
      have halive : s1.threadAlive = true := by
        rw [← h2]; rfl
      simp only [start, if_pos halive]

theorem start_idempotent_after_success_witness :
    start (start (initState sW) (ConnectBehavior.ack 5)).2.1 ConnectBehavior.raises
      = (true, (start (initState sW) (ConnectBehavior.ack 5)).2.1, []) :=
  start_idempotent_after_success (initState sW)
    (start (initState sW) (ConnectBehavior.ack 5)).2.1
    (start (initState sW) (ConnectBehavior.ack 5)).2.2
    (ConnectBehavior.ack 5) ConnectBehavior.raises rfl

/-- C10: when the connect request itself raises, `start` catches the
exception and returns `false` with the state — thread flag, supervisor
flags and all cached account data — exactly as before the call; the only
gateway interaction was the failed connect attempt. -/
theorem start_connect_raises_is_caught :
    ∀ st : ClientState, st.threadAlive = false →
    start st ConnectBehavior.raises = (false, st, [GatewayCmd.connect]) := by
  intro st ht
  rw [start, if_neg (by simp [ht])]

theorem start_connect_raises_is_caught_witness :
    start (initState sW) ConnectBehavior.raises
      = (false, initState sW, [GatewayCmd.connect]) :=
  start_connect_raises_is_caught (initState sW) rfl

end IBApi
